import Mathlib

/-!
Shallow embedding of a command-line contact manager (main.py): field
validation (Name, Phone, Birthday), Record operations, AddressBook
operations, and the top-level command handlers.  Python exceptions are
modelled with Except; mutation is modelled by explicit state passing.
Python str methods are modelled over the string's character list and
restricted to ASCII behaviour.  The upcoming-birthday query is not part
of this source file, so its calendar arithmetic is modelled from the
specification and marked as such.
-/

namespace ContactBook

/-- Python exceptions the program raises: ValueError and KeyError, with
their message text. -/
inductive PyError where
  | valueError (msg : String)
  | keyError (msg : String)
deriving DecidableEq, Repr

instance {ε α : Type} [DecidableEq ε] [DecidableEq α] : DecidableEq (Except ε α) := fun a b =>
  match a, b with
  | .ok x, .ok y => if h : x = y then .isTrue (by rw [h]) else .isFalse (by simp [h])
  | .error x, .error y => if h : x = y then .isTrue (by rw [h]) else .isFalse (by simp [h])
  | .ok _, .error _ => .isFalse (by simp)
  | .error _, .ok _ => .isFalse (by simp)

/-- Python str.isdigit, ASCII model: true when the string is nonempty and
every character is a decimal digit. -/
def pyIsdigit (s : String) : Bool := !s.data.isEmpty && s.data.all Char.isDigit

/-- `Name.__init__`: raises ValueError on a falsy (empty) value. -/
def mkName (value : String) : Except PyError String :=
  if value = "" then .error (.valueError "Name cannot be empty.")
  else .ok value

/-- A stored phone field: just its validated string value. -/
structure Phone where
  value : String
deriving DecidableEq, Repr

/-- `Phone.__init__`: raises unless value.isdigit() and len(value) == 10. -/
def mkPhone (value : String) : Except PyError Phone :=
  if pyIsdigit value = false ∨ value.length ≠ 10 then
    .error (.valueError "Phone number must be 10 digits.")
  else .ok ⟨value⟩

/-- A stored birthday field: `Birthday("")` stores None, otherwise the raw
validated string. -/
structure Birthday where
  value : Option String
deriving DecidableEq, Repr

/-- Python str.split for a one-character separator, over the character
list: split at every occurrence, keeping empty pieces. -/
def pySplit (sep : Char) : List Char → List (List Char)
  | [] => [[]]
  | c :: rest =>
    match pySplit sep rest with
    | [] => [[c]]
    | h :: t => if c = sep then [] :: h :: t else (c :: h) :: t

/-- The numeric value of a nonempty all-digit character list, else none
(the digit part of Python int()). -/
def digitsVal (l : List Char) : Option Nat :=
  if l ≠ [] ∧ l.all Char.isDigit then
    some (l.foldl (fun acc c => acc * 10 + (c.toNat - 48)) 0)
  else none

/-- Python int() over one component, ASCII model: an optional sign
followed by one or more decimal digits. -/
def pyInt (l : List Char) : Option Int :=
  match l with
  | '-' :: rest => (digitsVal rest).map (fun n => -(n : Int))
  | '+' :: rest => (digitsVal rest).map (fun n => (n : Int))
  | _ => (digitsVal l).map (fun n => (n : Int))

/-- `year, month, day = map(int, value.split('-'))`: some (y, m, d)
exactly when the split yields three integer components; any other
outcome of the unpacking or the conversions raises, giving none. -/
def pyParse3 (s : String) : Option (Int × Int × Int) :=
  match (pySplit '-' s.data).mapM pyInt with
  | some [y, m, d] => some (y, m, d)
  | _ => none

/-- `Birthday.__init__`: a falsy (empty) value stores None; otherwise the
lenient year-month-day parse with range checks on month and day only.
The range-check ValueError raised inside the try block is caught by the
same except clause, so every failure surfaces with one message. -/
def mkBirthday (value : String) : Except PyError Birthday :=
  if value = "" then .ok ⟨none⟩
  else
    match pyParse3 value with
    | some (_, m, d) =>
        if 1 ≤ m ∧ m ≤ 12 ∧ 1 ≤ d ∧ d ≤ 31 then .ok ⟨some value⟩
        else .error (.valueError "Invalid date format. Use YYYY-MM-DD")
    | none => .error (.valueError "Invalid date format. Use YYYY-MM-DD")

/-- One contact: name, ordered phone list, optional birthday field. -/
structure Record where
  name : String
  phones : List Phone
  birthday : Option Birthday
deriving DecidableEq, Repr

/-- `Record.find_phone`: the first phone whose value equals the argument. -/
def find_phone (r : Record) (phoneValue : String) : Option Phone :=
  r.phones.find? (fun p => p.value == phoneValue)

/-- `Record.add_phone`: append, no dedup. -/
def add_phone (r : Record) (p : Phone) : Record :=
  { r with phones := r.phones ++ [p] }

/-- Python list.remove of the object find_phone returned: drops the first
phone whose value equals the argument. -/
def removeFirstValue : List Phone → String → List Phone
  | [], _ => []
  | p :: ps, v => if p.value = v then ps else p :: removeFirstValue ps v

/-- `Record.remove_phone`: remove the first match or raise. -/
def remove_phone (r : Record) (phoneValue : String) : Except PyError Record :=
  match find_phone r phoneValue with
  | some _ => .ok { r with phones := removeFirstValue r.phones phoneValue }
  | none => .error (.valueError ("Phone " ++ phoneValue ++ " not found."))

/-- `Record.edit_phone`: the pair is the raised-or-ok outcome together
with the record state after the call.  Python removes the old phone from
self.phones before `Phone(new_value)` is validated, so the state after a
validation failure has already lost the old phone. -/
def edit_phone (r : Record) (oldValue newValue : String) : Except PyError Unit × Record :=
  match find_phone r oldValue with
  | none => (.error (.valueError ("Phone " ++ oldValue ++ " not found.")), r)
  | some _ =>
    let r1 : Record := { r with phones := removeFirstValue r.phones oldValue }
    match mkPhone newValue with
    | .error e => (.error e, r1)
    | .ok p => (.ok (), { r1 with phones := r1.phones ++ [p] })

/-- `Record.__str__`: name, comma-joined phone values, and a birthday
suffix with a leading space (no comma) only when the birthday field is
present and truthy. -/
def recordStr (r : Record) : String :=
  let phonesStr := String.intercalate ", " (r.phones.map Phone.value)
  let bsuffix :=
    match r.birthday with
    | some b =>
      match b.value with
      | some v => if v = "" then "" else " Birthday: " ++ v
      | none => ""
    | none => ""
  r.name ++ ": " ++ phonesStr ++ bsuffix

/-- The AddressBook's dict, as an insertion-ordered key-value list. -/
structure AddressBook where
  data : List (String × Record)
deriving Repr

def emptyBook : AddressBook := ⟨[]⟩

/-- Python dict assignment d[k] = v: replace at the existing key keeping
its position, or append a new key at the end. -/
def dictSet : List (String × Record) → String → Record → List (String × Record)
  | [], k, v => [(k, v)]
  | (k1, v1) :: rest, k, v =>
    if k1 = k then (k, v) :: rest else (k1, v1) :: dictSet rest k v

/-- Python dict deletion del d[k]: drop the entry holding the key (keys
are unique, so the first occurrence is the entry). -/
def dictErase : List (String × Record) → String → List (String × Record)
  | [], _ => []
  | (k1, v1) :: rest, k => if k1 = k then rest else (k1, v1) :: dictErase rest k

/-- `AddressBook.add_record`: self.data[record.name.value] = record. -/
def add_record (book : AddressBook) (r : Record) : AddressBook :=
  ⟨dictSet book.data r.name r⟩

/-- `AddressBook.find`: dict.get by exact key. -/
def find (book : AddressBook) (name : String) : Option Record :=
  match book.data.find? (fun kv => kv.1 == name) with
  | some kv => some kv.2
  | none => none

/-- `AddressBook.delete`: remove the key or raise KeyError. -/
def delete (book : AddressBook) (name : String) : Except PyError AddressBook :=
  match find book name with
  | some _ => .ok ⟨dictErase book.data name⟩
  | none => .error (.keyError ("Contact " ++ name ++ " not found."))

/-- In-place mutation of the record object stored under a key: Python
records are mutated through the reference held by the dict, which leaves
every key and every other entry untouched. -/
def updateAt (book : AddressBook) (name : String) (f : Record → Record) : AddressBook :=
  ⟨book.data.map (fun kv => if kv.1 = name then (kv.1, f kv.2) else kv)⟩

/-- The dict's keys in iteration (insertion) order. -/
def keys (book : AddressBook) : List String := book.data.map Prod.fst

/-- The mutating address-book operations a run of the program performs:
add_record, delete (the raised KeyError leaves the dict untouched), and
an in-place mutation of a found record. -/
inductive BookOp where
  | addRecord (r : Record)
  | del (name : String)
  | mutate (name : String) (f : Record → Record)

def applyBookOp (book : AddressBook) : BookOp → AddressBook
  | .addRecord r => add_record book r
  | .del n =>
    match delete book n with
    | .ok b2 => b2
    | .error _ => book
  | .mutate n f => updateAt book n f

def runOps (ops : List BookOp) : AddressBook :=
  ops.foldl applyBookOp emptyBook

/-- Shared body of the top-level add command after argument splitting. -/
def addContactCore (name phone : String) (birthday : Option String)
    (book : AddressBook) : Except PyError (String × AddressBook) :=
  match find book name with
  | some _ =>
    match mkPhone phone with
    | .error e => .error e
    | .ok p => .ok ("Contact " ++ name ++ " added/updated.",
        updateAt book name (fun q => add_phone q p))
  | none =>
    match mkName name with
    | .error e => .error e
    | .ok nm =>
      match (match birthday with
             | some b => if b = "" then Except.ok (none : Option Birthday)
                         else (mkBirthday b).map some
             | none => .ok none) with
      | .error e => .error e
      | .ok bd =>
        match mkPhone phone with
        | .error e => .error e
        | .ok p => .ok ("Contact " ++ name ++ " added/updated.",
            add_record book { name := nm, phones := [p], birthday := bd })

/-- `add_contact(args, address_book)`: 2 or 3 arguments; an existing name
gets the phone appended to its record (the birthday argument unused), a
new name gets a fresh record with the optional birthday. -/
def add_contact (args : List String) (book : AddressBook) :
    Except PyError (String × AddressBook) :=
  match args with
  | [name, phone] => addContactCore name phone none book
  | [name, phone, b] => addContactCore name phone (some b) book
  | _ => .error (.valueError "Invalid input. Expected: add <name> <phone> [<birthday>]")

/-- `add_birthday(args, address_book)`: parse the birthday first (an
invalid one raises, re-wrapped), then either update the found record's
birthday or return a not-found message without touching the book. -/
def add_birthday (args : List String) (book : AddressBook) :
    Except PyError (String × AddressBook) :=
  match args with
  | [name, birthdayStr] =>
    match mkBirthday birthdayStr with
    | .error (.valueError m) =>
        .error (.valueError ("Invalid birthday format: " ++ m))
    | .error e => .error e
    | .ok b =>
      match find book name with
      | some _ => .ok ("Birthday for " ++ name ++ " added/updated.",
          updateAt book name (fun q => { q with birthday := some b }))
      | none => .ok ("Contact " ++ name ++ " not found.", book)
  | _ => .error (.valueError "Invalid input. Expected: add_birthday <name> <birthday>")

/-- A calendar date, proleptic Gregorian. -/
structure Date where
  year : Int
  month : Int
  day : Int
deriving DecidableEq, Repr

/-- Modelled from the spec: the repository's source has no date library,
so calendar arithmetic for the upcoming-birthday query is the standard
days-from-civil computation, giving the day number (days since
1970-01-01) of a civil date. -/
def daysFromCivil (y m d : Int) : Int :=
  let y2 := if m ≤ 2 then y - 1 else y
  let era := y2 / 400
  let yoe := y2 - era * 400
  let mp := (m + 9) % 12
  let doy := (153 * mp + 2) / 5 + d - 1
  let doe := yoe * 365 + yoe / 4 - yoe / 100 + doy
  era * 146097 + doe - 719468

def dayNumber (dt : Date) : Int := daysFromCivil dt.year dt.month dt.day

/-- Modelled from the spec: weekday with Monday = 0 (day number 0,
1970-01-01, was a Thursday). -/
def weekdayM (z : Int) : Int := (z + 3) % 7

/-- Modelled from the spec: the effective congratulation date (as a day
number) of a stored birthday month/day — the occurrence in today's year,
recomputed with next year when already past, and a Saturday or Sunday
advanced to the following Monday by adding 7 - weekday days. -/
def effectiveDay (bm bd : Int) (today : Date) : Int :=
  let c0 := daysFromCivil today.year bm bd
  let c1 := if c0 < dayNumber today then daysFromCivil (today.year + 1) bm bd else c0
  let w := weekdayM c1
  if 5 ≤ w then c1 + (7 - w) else c1

/-- Modelled from the spec: one record's contribution to the
upcoming-birthday report — its effective date when the record has a
birthday within 0 to 7 days of today, none otherwise. -/
def upcomingEntry (today : Date) (kv : String × Record) : Option (String × Int) :=
  match kv.2.birthday with
  | none => none
  | some b =>
    match b.value with
    | none => none
    | some s =>
      match pyParse3 s with
      | none => none
      | some (_, m, d) =>
        let eff := effectiveDay m d today
        if 0 ≤ eff - dayNumber today ∧ eff - dayNumber today ≤ 7 then
          some (kv.1, eff)
        else none

/-- Modelled from the spec: upcoming_birthdays walks the book in its
iteration order and keeps each record whose effective congratulation
date lies within 0 to 7 days of today. -/
def upcomingBirthdays (book : AddressBook) (today : Date) : List (String × Int) :=
  book.data.filterMap (upcomingEntry today)

lemma removeFirstValue_length (l : List Phone) (v : String)
    (hmem : ∃ q ∈ l, q.value = v) :
    (removeFirstValue l v).length + 1 = l.length := by
  induction l with
  | nil => simp at hmem
  | cons a l ih =>
    by_cases ha : a.value = v
    · simp [removeFirstValue, ha]
    · obtain ⟨q, hq, hqv⟩ := hmem
      rcases List.mem_cons.mp hq with rfl | hq2
      · exact absurd hqv ha
      · simp only [removeFirstValue, if_neg ha, List.length_cons]
        rw [ih ⟨q, hq2, hqv⟩]

/-- C1: constructing a Phone succeeds, round-tripping the stored value,
exactly when the input is ten ASCII digit characters; anything else fails
with the invalid-phone ValueError. -/
theorem phone_validation_spec (raw : String) :
    (mkPhone raw = .ok ⟨raw⟩ ↔ raw.length = 10 ∧ raw.data.all Char.isDigit = true) ∧
    (mkPhone raw = .error (.valueError "Phone number must be 10 digits.") ↔
      ¬(raw.length = 10 ∧ raw.data.all Char.isDigit = true)) := by
  have hlen : raw.length = raw.data.length := rfl
  have key : (pyIsdigit raw = false ∨ raw.length ≠ 10) ↔
      ¬(raw.length = 10 ∧ raw.data.all Char.isDigit = true) := by
    unfold pyIsdigit
    constructor
    · rintro (h | h) ⟨h10, hd⟩
      · rw [Bool.and_eq_false_iff] at h
        rcases h with h | h
        · rw [Bool.not_eq_false', List.isEmpty_iff] at h
          rw [hlen, h] at h10
          exact absurd h10 (by decide)
        · rw [hd] at h; cases h
      · exact h h10
    · intro h
      by_cases h10 : raw.length = 10
      · rcases Bool.eq_false_or_eq_true (raw.data.all Char.isDigit) with ht | hf
        · exact absurd ⟨h10, ht⟩ h
        · left
          rw [Bool.and_eq_false_iff]
          right
          exact hf
      · right; exact h10
  unfold mkPhone
  split_ifs with h
  · have hnot := key.mp h
    constructor
    · constructor
      · intro he; cases he
      · intro hok; exact absurd hok hnot
    · constructor
      · intro _; exact hnot
      · intro _; rfl
  · have hyes : raw.length = 10 ∧ raw.data.all Char.isDigit = true := by
      by_contra hc
      exact h (key.mpr hc)
    constructor
    · constructor
      · intro _; exact hyes
      · intro _; rfl
    · constructor
      · intro he; cases he
      · intro hc; exact absurd hyes hc

/-- C2: the lenient Birthday constructor accepts the empty string as the
distinguished no-birthday value, succeeds on a nonempty string exactly
when splitting on the dash yields three integer components with month in
1..12 and day in 1..31 (no month-length or leap-year check), and fails
with the invalid-date ValueError otherwise. -/
theorem birthday_validation_spec :
    mkBirthday "" = .ok ⟨none⟩ ∧
    ∀ s : String, s ≠ "" →
      ((mkBirthday s = .ok ⟨some s⟩) ↔
        ∃ y m d, pyParse3 s = some (y, m, d) ∧
          1 ≤ m ∧ m ≤ 12 ∧ 1 ≤ d ∧ d ≤ 31) ∧
      ((mkBirthday s = .error (.valueError "Invalid date format. Use YYYY-MM-DD")) ↔
        ¬∃ y m d, pyParse3 s = some (y, m, d) ∧
          1 ≤ m ∧ m ≤ 12 ∧ 1 ≤ d ∧ d ≤ 31) := by
  refine ⟨rfl, ?_⟩
  intro s hs
  unfold mkBirthday
  rw [if_neg hs]
  cases hp : pyParse3 s with
  | none =>
    have hno : ¬∃ y m d, (none : Option (Int × Int × Int)) = some (y, m, d) ∧
        1 ≤ m ∧ m ≤ 12 ∧ 1 ≤ d ∧ d ≤ 31 := by
      rintro ⟨y, m, d, hpd, -⟩
      cases hpd
    constructor
    · constructor
      · intro he; cases he
      · intro hex; exact absurd hex hno
    · constructor
      · intro _; exact hno
      · intro _; rfl
  | some t =>
    obtain ⟨y0, m0, d0⟩ := t
    show ((if 1 ≤ m0 ∧ m0 ≤ 12 ∧ 1 ≤ d0 ∧ d0 ≤ 31 then Except.ok (⟨some s⟩ : Birthday)
        else Except.error (PyError.valueError "Invalid date format. Use YYYY-MM-DD")) =
          Except.ok (⟨some s⟩ : Birthday) ↔
        ∃ y m d, (some (y0, m0, d0) : Option (Int × Int × Int)) = some (y, m, d) ∧
          1 ≤ m ∧ m ≤ 12 ∧ 1 ≤ d ∧ d ≤ 31) ∧
      ((if 1 ≤ m0 ∧ m0 ≤ 12 ∧ 1 ≤ d0 ∧ d0 ≤ 31 then Except.ok (⟨some s⟩ : Birthday)
        else Except.error (PyError.valueError "Invalid date format. Use YYYY-MM-DD")) =
          Except.error (PyError.valueError "Invalid date format. Use YYYY-MM-DD") ↔
        ¬∃ y m d, (some (y0, m0, d0) : Option (Int × Int × Int)) = some (y, m, d) ∧
          1 ≤ m ∧ m ≤ 12 ∧ 1 ≤ d ∧ d ≤ 31)
    by_cases hr : 1 ≤ m0 ∧ m0 ≤ 12 ∧ 1 ≤ d0 ∧ d0 ≤ 31
    · rw [if_pos hr]
      have hex : ∃ y m d, (some (y0, m0, d0) : Option (Int × Int × Int)) = some (y, m, d) ∧
          1 ≤ m ∧ m ≤ 12 ∧ 1 ≤ d ∧ d ≤ 31 :=
        ⟨y0, m0, d0, rfl, hr.1, hr.2.1, hr.2.2.1, hr.2.2.2⟩
      constructor
      · constructor
        · intro _; exact hex
        · intro _; rfl
      · constructor
        · intro he; cases he
        · intro hc; exact absurd hex hc
    · rw [if_neg hr]
      have hno : ¬∃ y m d, (some (y0, m0, d0) : Option (Int × Int × Int)) = some (y, m, d) ∧
          1 ≤ m ∧ m ≤ 12 ∧ 1 ≤ d ∧ d ≤ 31 := by
        rintro ⟨y, m, d, hpd, h1, h2, h3, h4⟩
        simp only [Option.some.injEq, Prod.mk.injEq] at hpd
        obtain ⟨-, hm, hd⟩ := hpd
        exact hr ⟨hm ▸ h1, hm ▸ h2, hd ▸ h3, hd ▸ h4⟩
      constructor
      · constructor
        · intro he; cases he
        · intro hex; exact absurd hex hno
      · constructor
        · intro _; exact hno
        · intro _; rfl

/-- C3 (corrected): edit_phone raises PhoneNotFound when no phone matches
the old value, raises InvalidPhone when the new value fails validation,
and on success removes the first phone equal to the old value and appends
the new phone at the end of the list, so the edited phone's position is
not preserved. -/
theorem edit_phone_spec :
    (∀ (r : Record) (oldV newV : String), find_phone r oldV = none →
      edit_phone r oldV newV
        = (.error (.valueError ("Phone " ++ oldV ++ " not found.")), r)) ∧
    (∀ (r : Record) (oldV newV : String) (p : Phone) (e : PyError),
      find_phone r oldV = some p → mkPhone newV = .error e →
      edit_phone r oldV newV
        = (.error e, { r with phones := removeFirstValue r.phones oldV })) ∧
    (∀ (r : Record) (oldV newV : String) (p : Phone),
      find_phone r oldV = some p → mkPhone newV = .ok ⟨newV⟩ →
      edit_phone r oldV newV
        = (.ok (), { r with phones := removeFirstValue r.phones oldV ++ [⟨newV⟩] })) := by
  refine ⟨?_, ?_, ?_⟩
  · intro r oldV newV h
    unfold edit_phone
    rw [h]
  · intro r oldV newV p e h1 h2
    unfold edit_phone
    rw [h1, h2]
  · intro r oldV newV p h1 h2
    unfold edit_phone
    rw [h1, h2]

/-- C3 counterexample: a successful edit of the first of two phones leaves
the untouched phone first and the new phone last, not the new phone in
the edited position. -/
theorem edit_phone_position_cex :
    (edit_phone ⟨"Ann", [⟨"1111111111"⟩, ⟨"2222222222"⟩], none⟩
        "1111111111" "3333333333").1 = .ok () ∧
    (edit_phone ⟨"Ann", [⟨"1111111111"⟩, ⟨"2222222222"⟩], none⟩
        "1111111111" "3333333333").2.phones
      = [⟨"2222222222"⟩, ⟨"3333333333"⟩] ∧
    (edit_phone ⟨"Ann", [⟨"1111111111"⟩, ⟨"2222222222"⟩], none⟩
        "1111111111" "3333333333").2.phones
      ≠ [⟨"3333333333"⟩, ⟨"2222222222"⟩] := by
  refine ⟨rfl, rfl, ?_⟩
  decide

/-- C9: when the old value is present but the new value fails phone
validation, edit_phone raises, yet the returned state has already lost
the first occurrence of the old value (one phone shorter): the operation
is not atomic on error. -/
theorem edit_phone_state_on_error (r : Record) (oldV newV : String) (p : Phone)
    (e : PyError) (hfind : find_phone r oldV = some p)
    (hbad : mkPhone newV = .error e) :
    (edit_phone r oldV newV).1 = .error e ∧
    (edit_phone r oldV newV).2.phones = removeFirstValue r.phones oldV ∧
    (removeFirstValue r.phones oldV).length + 1 = r.phones.length := by
  have hrm := removeFirstValue_length r.phones oldV
    ⟨p, List.mem_of_find?_eq_some hfind, by simpa using List.find?_some hfind⟩
  unfold edit_phone
  rw [hfind, hbad]
  exact ⟨rfl, rfl, hrm⟩

theorem edit_phone_state_on_error_witness :
    (edit_phone ⟨"Ann", [⟨"1111111111"⟩], none⟩ "1111111111" "12").1
      = .error (.valueError "Phone number must be 10 digits.") ∧
    (edit_phone ⟨"Ann", [⟨"1111111111"⟩], none⟩ "1111111111" "12").2.phones
      = removeFirstValue [⟨"1111111111"⟩] "1111111111" ∧
    (removeFirstValue [⟨"1111111111"⟩] "1111111111").length + 1
      = ([(⟨"1111111111"⟩ : Phone)] : List Phone).length :=
  edit_phone_state_on_error ⟨"Ann", [⟨"1111111111"⟩], none⟩ "1111111111" "12"
    ⟨"1111111111"⟩ (.valueError "Phone number must be 10 digits.")
    (by decide) (by decide)

/-- C6 (corrected): a record renders as the name, a colon and space, the
comma-joined phone values, and — only when a truthy birthday is present —
a suffix with a leading space (no comma) before the word Birthday; the
Mia scenario renders exactly as claimed. -/
theorem record_render_spec (name : String) (phones : List Phone) (v : String) :
    recordStr ⟨name, phones, none⟩
      = name ++ ": " ++ String.intercalate ", " (phones.map Phone.value) ∧
    recordStr ⟨name, phones, some ⟨none⟩⟩
      = name ++ ": " ++ String.intercalate ", " (phones.map Phone.value) ∧
    (v ≠ "" → recordStr ⟨name, phones, some ⟨some v⟩⟩
      = name ++ ": " ++ String.intercalate ", " (phones.map Phone.value)
        ++ " Birthday: " ++ v) ∧
    recordStr ⟨"Mia", [⟨"1234567890"⟩], none⟩ = "Mia: 1234567890" := by
  refine ⟨?_, ?_, ?_, rfl⟩
  · simp [recordStr]
  · simp [recordStr]
  · intro hv
    simp [recordStr, hv, String.append_assoc]

/-- C6 counterexample: with a birthday present the code renders a plain
space before the word Birthday, not the comma and space the claim
states. -/
theorem record_render_cex :
    recordStr ⟨"Mia", [⟨"1234567890"⟩], some ⟨some "2000-01-01"⟩⟩
      = "Mia: 1234567890 Birthday: 2000-01-01" ∧
    recordStr ⟨"Mia", [⟨"1234567890"⟩], some ⟨some "2000-01-01"⟩⟩
      ≠ "Mia: 1234567890, Birthday: 2000-01-01" := by
  refine ⟨rfl, ?_⟩
  decide

lemma find?_dictSet (l : List (String × Record)) (k : String) (v : Record) :
    (dictSet l k v).find? (fun kv => kv.1 == k) = some (k, v) := by
  induction l with
  | nil => simp [dictSet, List.find?]
  | cons a l ih =>
    obtain ⟨k1, v1⟩ := a
    by_cases hk : k1 = k
    · simp [dictSet, hk, List.find?]
    · simp [dictSet, hk, List.find?, ih]

lemma mem_keys_of_find (book : AddressBook) (n : String) (r : Record)
    (h : find book n = some r) : n ∈ keys book := by
  unfold find at h
  cases hf : book.data.find? (fun kv => kv.1 == n) with
  | none => rw [hf] at h; cases h
  | some kv =>
    have hp := List.find?_some hf
    have hmem := List.mem_of_find?_eq_some hf
    have hk : kv.1 = n := by simpa using hp
    unfold keys
    exact hk ▸ List.mem_map_of_mem Prod.fst hmem

lemma keys_dictSet_of_mem (l : List (String × Record)) (k : String) (v : Record)
    (h : k ∈ l.map Prod.fst) :
    (dictSet l k v).map Prod.fst = l.map Prod.fst := by
  induction l with
  | nil => simp at h
  | cons a l ih =>
    obtain ⟨k1, v1⟩ := a
    by_cases hk : k1 = k
    · simp [dictSet, hk]
    · have h2 : k ∈ l.map Prod.fst := by
        simp only [List.map_cons] at h
        rcases List.mem_cons.mp h with h3 | h3
        · exact absurd h3.symm hk
        · exact h3
      simp [dictSet, hk, ih h2]

lemma mem_keys_dictSet (l : List (String × Record)) (k : String) (v : Record)
    (a : String) (h : a ∈ (dictSet l k v).map Prod.fst) :
    a ∈ l.map Prod.fst ∨ a = k := by
  induction l with
  | nil =>
    simp [dictSet] at h
    right; exact h
  | cons b l ih =>
    obtain ⟨k1, v1⟩ := b
    by_cases hk : k1 = k
    · simp only [dictSet, if_pos hk, List.map_cons] at h
      rcases List.mem_cons.mp h with rfl | h2
      · right; rfl
      · left; simp [h2]
    · simp only [dictSet, if_neg hk, List.map_cons] at h
      rcases List.mem_cons.mp h with rfl | h2
      · left; simp
      · rcases ih h2 with h3 | h3
        · left; simp [h3]
        · right; exact h3

lemma nodup_keys_dictSet (l : List (String × Record)) (k : String) (v : Record)
    (h : (l.map Prod.fst).Nodup) :
    ((dictSet l k v).map Prod.fst).Nodup := by
  induction l with
  | nil => simp [dictSet]
  | cons b l ih =>
    obtain ⟨k1, v1⟩ := b
    simp only [List.map_cons, List.nodup_cons] at h
    obtain ⟨hnot, hn⟩ := h
    by_cases hk : k1 = k
    · have hds : dictSet ((k1, v1) :: l) k v = (k, v) :: l := by
        unfold dictSet
        rw [if_pos hk]
      rw [hds, List.map_cons, List.nodup_cons]
      exact ⟨hk ▸ hnot, hn⟩
    · simp only [dictSet, if_neg hk, List.map_cons, List.nodup_cons]
      refine ⟨?_, ih hn⟩
      intro hmem
      rcases mem_keys_dictSet l k v k1 hmem with h3 | h3
      · exact hnot h3
      · exact hk h3

lemma keys_dictErase_sublist (l : List (String × Record)) (k : String) :
    List.Sublist ((dictErase l k).map Prod.fst) (l.map Prod.fst) := by
  induction l with
  | nil => simp [dictErase]
  | cons b l ih =>
    obtain ⟨k1, v1⟩ := b
    by_cases hk : k1 = k
    · simp only [dictErase, if_pos hk, List.map_cons]
      exact (List.Sublist.refl _).cons k1
    · simp only [dictErase, if_neg hk, List.map_cons]
      exact ih.cons₂ k1

lemma keys_updateAt (book : AddressBook) (n : String) (f : Record → Record) :
    keys (updateAt book n f) = keys book := by
  unfold keys updateAt
  rw [List.map_map]
  apply List.map_congr_left
  intro kv _
  by_cases hk : kv.1 = n
  · simp [Function.comp, hk]
  · simp [Function.comp, hk]

lemma find?_updateAt (l : List (String × Record)) (n : String) (f : Record → Record) :
    (l.map (fun kv => if kv.1 = n then (kv.1, f kv.2) else kv)).find? (fun kv => kv.1 == n)
      = (l.find? (fun kv => kv.1 == n)).map (fun kv => (kv.1, f kv.2)) := by
  induction l with
  | nil => rfl
  | cons a l ih =>
    obtain ⟨k1, v1⟩ := a
    by_cases hk : k1 = n
    · simp [List.find?, hk]
    · have hb2 : (k1 == n) = false := by simp [hk]
      simp [List.find?, hk, hb2, ih]

lemma find_updateAt (book : AddressBook) (n : String) (f : Record → Record) :
    find (updateAt book n f) n = (find book n).map f := by
  unfold find updateAt
  rw [show (⟨book.data.map (fun kv => if kv.1 = n then (kv.1, f kv.2) else kv)⟩ :
      AddressBook).data
    = book.data.map (fun kv => if kv.1 = n then (kv.1, f kv.2) else kv) from rfl]
  rw [find?_updateAt]
  cases book.data.find? (fun kv => kv.1 == n) <;> rfl

lemma countP_removeFirstValue (l : List Phone) (v : String)
    (h : 0 < l.countP (fun q => q.value == v)) :
    (removeFirstValue l v).countP (fun q => q.value == v) + 1
      = l.countP (fun q => q.value == v) := by
  induction l with
  | nil => simp at h
  | cons a l ih =>
    by_cases ha : a.value = v
    · simp [removeFirstValue, ha, List.countP_cons]
    · have h2 : 0 < l.countP (fun q => q.value == v) := by
        simpa [List.countP_cons, ha] using h
      simp [removeFirstValue, ha, List.countP_cons, ih h2]

/-- C5: add_record on an existing key silently overwrites the stored
record keeping the key set unchanged (upsert), and any sequence of
add_record, delete and record-mutation operations from the empty book
keeps the address book's keys pairwise distinct. -/
theorem add_record_upsert_unique_keys :
    (∀ (book : AddressBook) (r old : Record), find book r.name = some old →
      find (add_record book r) r.name = some r ∧
      keys (add_record book r) = keys book) ∧
    (∀ ops : List BookOp, (keys (runOps ops)).Nodup) := by
  constructor
  · intro book r old h
    constructor
    · unfold find add_record
      rw [show (⟨dictSet book.data r.name r⟩ : AddressBook).data
          = dictSet book.data r.name r from rfl]
      rw [find?_dictSet]
    · unfold keys add_record
      exact keys_dictSet_of_mem book.data r.name r (mem_keys_of_find book r.name old h)
  · intro ops
    have step : ∀ (book : AddressBook) (op : BookOp), (keys book).Nodup →
        (keys (applyBookOp book op)).Nodup := by
      intro book op h
      cases op with
      | addRecord r => exact nodup_keys_dictSet book.data r.name r h
      | del n =>
        show (keys (match delete book n with | .ok b2 => b2 | .error _ => book)).Nodup
        unfold delete
        cases hf : find book n with
        | none => exact h
        | some r0 => exact List.Nodup.sublist (keys_dictErase_sublist book.data n) h
      | mutate n f =>
        show (keys (updateAt book n f)).Nodup
        rw [keys_updateAt]
        exact h
    have main : ∀ (ops2 : List BookOp) (book : AddressBook), (keys book).Nodup →
        (keys (ops2.foldl applyBookOp book)).Nodup := by
      intro ops2
      induction ops2 with
      | nil => intro book h; exact h
      | cons op rest ih => intro book h; exact ih _ (step book op h)
    exact main ops emptyBook (by simp [keys, emptyBook])

/-- C7 (corrected): when the record holds exactly one phone equal to the
old value and the new value is a distinct valid phone, a successful
edit_phone makes findPhone of the new value return the edited phone and
findPhone of the old value return absent.  (With duplicate copies of the
old value, the old value is still found afterwards.) -/
theorem edit_then_find_spec (r : Record) (oldV newV : String)
    (hcount : r.phones.countP (fun q => q.value == oldV) = 1)
    (hne : oldV ≠ newV)
    (hphone : mkPhone newV = .ok ⟨newV⟩) :
    (edit_phone r oldV newV).1 = .ok () ∧
    find_phone (edit_phone r oldV newV).2 newV = some ⟨newV⟩ ∧
    find_phone (edit_phone r oldV newV).2 oldV = none := by
  have hpos : 0 < r.phones.countP (fun q => q.value == oldV) := by
    rw [hcount]; exact Nat.one_pos
  have hex : ∃ q ∈ r.phones, (fun q => q.value == oldV) q = true :=
    List.countP_pos_iff.mp hpos
  have hfind : ∃ p, find_phone r oldV = some p := by
    unfold find_phone
    rcases hex with ⟨q, hq, hqv⟩
    cases hf : r.phones.find? (fun q => q.value == oldV) with
    | none =>
      rw [List.find?_eq_none] at hf
      exact absurd hqv (hf q hq)
    | some p => exact ⟨p, rfl⟩
  obtain ⟨p, hp⟩ := hfind
  have hzero : (removeFirstValue r.phones oldV).countP (fun q => q.value == oldV) = 0 := by
    have := countP_removeFirstValue r.phones oldV hpos
    omega
  unfold edit_phone
  rw [hp, hphone]
  refine ⟨rfl, ?_, ?_⟩
  · show (removeFirstValue r.phones oldV ++ [(⟨newV⟩ : Phone)]).find?
        (fun q => q.value == newV) = some (⟨newV⟩ : Phone)
    cases hf2 : (removeFirstValue r.phones oldV ++ [(⟨newV⟩ : Phone)]).find?
        (fun q => q.value == newV) with
    | none =>
      rw [List.find?_eq_none] at hf2
      have : (⟨newV⟩ : Phone) ∈ removeFirstValue r.phones oldV ++ [(⟨newV⟩ : Phone)] := by
        simp
      exact absurd (by simp : ((⟨newV⟩ : Phone).value == newV) = true) (hf2 _ this)
    | some q =>
      have hq := List.find?_some hf2
      have : q.value = newV := by simpa using hq
      cases q
      simp_all
  · show (removeFirstValue r.phones oldV ++ [(⟨newV⟩ : Phone)]).find?
        (fun q => q.value == oldV) = none
    rw [List.find?_eq_none]
    intro x hx
    rcases List.mem_append.mp hx with hx1 | hx2
    · have := List.countP_eq_zero.mp hzero x hx1
      simpa using this
    · have : x = (⟨newV⟩ : Phone) := by simpa using hx2
      subst this
      simp only [Bool.not_eq_true, beq_eq_false_iff_ne, ne_eq]
      intro hc
      exact hne (hc.symm)

theorem edit_then_find_witness :
    (edit_phone ⟨"Ann", [⟨"1111111111"⟩], none⟩ "1111111111" "2222222222").1 = .ok () ∧
    find_phone (edit_phone ⟨"Ann", [⟨"1111111111"⟩], none⟩
        "1111111111" "2222222222").2 "2222222222" = some ⟨"2222222222"⟩ ∧
    find_phone (edit_phone ⟨"Ann", [⟨"1111111111"⟩], none⟩
        "1111111111" "2222222222").2 "1111111111" = none :=
  edit_then_find_spec ⟨"Ann", [⟨"1111111111"⟩], none⟩ "1111111111" "2222222222"
    (by decide) (by decide) (by decide)

/-- C7 counterexample: a record holding two copies of the old value still
finds the old value after a successful edit, against the claim that it
is absent for every record that previously held it. -/
theorem edit_then_find_cex :
    (edit_phone ⟨"Bob", [⟨"1111111111"⟩, ⟨"1111111111"⟩], none⟩
        "1111111111" "2222222222").1 = .ok () ∧
    find_phone (edit_phone ⟨"Bob", [⟨"1111111111"⟩, ⟨"1111111111"⟩], none⟩
        "1111111111" "2222222222").2 "1111111111" = some ⟨"1111111111"⟩ := by
  refine ⟨rfl, rfl⟩

/-- C8: with a well-formed birthday string, add_birthday on a missing
contact returns a not-found message without raising and leaves the book
unchanged (the contact is not created); on an existing contact it
overwrites the stored birthday (add-or-update). -/
theorem add_birthday_spec (name bstr : String) (book : AddressBook) (b : Birthday)
    (hb : mkBirthday bstr = .ok b) :
    (find book name = none →
      add_birthday [name, bstr] book = .ok ("Contact " ++ name ++ " not found.", book)) ∧
    (∀ r : Record, find book name = some r →
      add_birthday [name, bstr] book
        = .ok ("Birthday for " ++ name ++ " added/updated.",
            updateAt book name (fun q => { q with birthday := some b })) ∧
      find (updateAt book name (fun q => { q with birthday := some b })) name
        = some { name := r.name, phones := r.phones, birthday := some b }) := by
  constructor
  · intro hn
    show (match mkBirthday bstr with
      | .error (.valueError m) => .error (.valueError ("Invalid birthday format: " ++ m))
      | .error e => .error e
      | .ok b2 =>
        match find book name with
        | some _ => .ok ("Birthday for " ++ name ++ " added/updated.",
            updateAt book name (fun q => { q with birthday := some b2 }))
        | none => .ok ("Contact " ++ name ++ " not found.", book))
      = Except.ok (("Contact " ++ name ++ " not found.", book) : String × AddressBook)
    rw [hb, hn]
  · intro r hr
    constructor
    · show (match mkBirthday bstr with
        | .error (.valueError m) => .error (.valueError ("Invalid birthday format: " ++ m))
        | .error e => .error e
        | .ok b2 =>
          match find book name with
          | some _ => .ok ("Birthday for " ++ name ++ " added/updated.",
              updateAt book name (fun q => { q with birthday := some b2 }))
          | none => .ok ("Contact " ++ name ++ " not found.", book))
        = Except.ok (("Birthday for " ++ name ++ " added/updated.",
            updateAt book name (fun q => { q with birthday := some b })) :
            String × AddressBook)
      rw [hb, hr]
    · rw [find_updateAt, hr]
      rfl

theorem add_birthday_spec_witness :
    add_birthday ["Bob", "2000-01-01"]
        ⟨[("Mia", ⟨"Mia", [⟨"1234567890"⟩], none⟩)]⟩
      = .ok ("Contact Bob not found.",
          ⟨[("Mia", ⟨"Mia", [⟨"1234567890"⟩], none⟩)]⟩) :=
  (add_birthday_spec "Bob" "2000-01-01"
      ⟨[("Mia", ⟨"Mia", [⟨"1234567890"⟩], none⟩)]⟩ ⟨some "2000-01-01"⟩
      (by decide)).1 (by decide)

/-- C10: the top-level add command on an existing name with a phone and a
birthday argument only appends the phone to the existing record; the
birthday argument is ignored and the stored name and birthday are
unchanged. -/
theorem add_contact_existing_spec (book : AddressBook) (name phone bstr : String)
    (r : Record) (hfind : find book name = some r)
    (hphone : mkPhone phone = .ok ⟨phone⟩) :
    add_contact [name, phone, bstr] book
      = .ok ("Contact " ++ name ++ " added/updated.",
          updateAt book name (fun q => add_phone q ⟨phone⟩)) ∧
    find (updateAt book name (fun q => add_phone q ⟨phone⟩)) name
      = some { name := r.name, phones := r.phones ++ [⟨phone⟩], birthday := r.birthday } := by
  constructor
  · show addContactCore name phone (some bstr) book
      = .ok ("Contact " ++ name ++ " added/updated.",
          updateAt book name (fun q => add_phone q ⟨phone⟩))
    unfold addContactCore
    rw [hfind, hphone]
  · rw [find_updateAt, hfind]
    rfl

theorem add_contact_existing_witness :
    add_contact ["Mia", "5555555555", "1999-12-31"]
        ⟨[("Mia", ⟨"Mia", [⟨"1234567890"⟩], none⟩)]⟩
      = .ok ("Contact Mia added/updated.",
          updateAt ⟨[("Mia", ⟨"Mia", [⟨"1234567890"⟩], none⟩)]⟩ "Mia"
            (fun q => add_phone q ⟨"5555555555"⟩)) :=
  (add_contact_existing_spec ⟨[("Mia", ⟨"Mia", [⟨"1234567890"⟩], none⟩)]⟩
      "Mia" "5555555555" "1999-12-31" ⟨"Mia", [⟨"1234567890"⟩], none⟩
      (by decide) (by decide)).1

lemma upcomingEntry_eq_some (today : Date) (k : String) (r : Record)
    (n : String) (e : Int) :
    upcomingEntry today (k, r) = some (n, e) ↔
      n = k ∧ ∃ s y m d, r.birthday = some ⟨some s⟩ ∧ pyParse3 s = some (y, m, d) ∧
        e = effectiveDay m d today ∧ 0 ≤ e - dayNumber today ∧ e - dayNumber today ≤ 7 := by
  constructor
  · intro h
    unfold upcomingEntry at h
    cases hb : r.birthday with
    | none => rw [hb] at h; cases h
    | some b =>
      rw [hb] at h
      dsimp only at h
      cases hv : b.value with
      | none => rw [hv] at h; dsimp only at h; cases h
      | some s =>
        rw [hv] at h
        dsimp only at h
        cases hp : pyParse3 s with
        | none => rw [hp] at h; dsimp only at h; cases h
        | some t =>
          obtain ⟨y0, m0, d0⟩ := t
          rw [hp] at h
          dsimp only at h
          by_cases hc : 0 ≤ effectiveDay m0 d0 today - dayNumber today ∧
              effectiveDay m0 d0 today - dayNumber today ≤ 7
          · rw [if_pos hc] at h
            simp only [Option.some.injEq, Prod.mk.injEq] at h
            obtain ⟨hk, he⟩ := h
            refine ⟨hk.symm, s, y0, m0, d0, ?_, hp, he.symm, ?_, ?_⟩
            · cases b with
              | mk w => rw [show w = some s from hv]
            · rw [← he]
              exact hc.1
            · rw [← he]
              exact hc.2
          · rw [if_neg hc] at h
            cases h
  · rintro ⟨rfl, s, y, m, d, hbv, hp, he, h0, h7⟩
    subst he
    unfold upcomingEntry
    dsimp only
    rw [hbv]
    dsimp only
    rw [hp]
    dsimp only
    rw [if_pos ⟨h0, h7⟩]

/-- C4 (spec-modelled): upcoming_birthdays returns, in the book's
iteration order, exactly the records with a parsed birthday whose
effective congratulation date (this year's occurrence, rolled past today
into next year and past a weekend onto Monday) lies within 0 to 7 days
of today; the result is a pure function of the stored birthdays and
today. -/
theorem upcoming_birthdays_spec (book : AddressBook) (today : Date)
    (n : String) (e : Int) :
    ((n, e) ∈ upcomingBirthdays book today ↔
      ∃ r s y m d, (n, r) ∈ book.data ∧ r.birthday = some ⟨some s⟩ ∧
        pyParse3 s = some (y, m, d) ∧ e = effectiveDay m d today ∧
        0 ≤ e - dayNumber today ∧ e - dayNumber today ≤ 7) ∧
    List.Sublist ((upcomingBirthdays book today).map Prod.fst)
      (book.data.map Prod.fst) := by
  constructor
  · unfold upcomingBirthdays
    rw [List.mem_filterMap]
    constructor
    · rintro ⟨⟨k, r0⟩, hmem, hent⟩
      obtain ⟨hk, s, y, m, d, hbv, hp, he, h0, h7⟩ :=
        (upcomingEntry_eq_some today k r0 n e).mp hent
      subst hk
      exact ⟨r0, s, y, m, d, hmem, hbv, hp, he, h0, h7⟩
    · rintro ⟨r0, s, y, m, d, hmem, hbv, hp, he, h0, h7⟩
      exact ⟨(n, r0), hmem,
        (upcomingEntry_eq_some today n r0 n e).mpr
          ⟨rfl, s, y, m, d, hbv, hp, he, h0, h7⟩⟩
  · unfold upcomingBirthdays
    obtain ⟨data⟩ := book
    induction data with
    | nil => simp
    | cons a l ih =>
      cases hent : upcomingEntry today a with
      | none =>
        simp only [List.filterMap_cons, hent, List.map_cons]
        exact ih.cons a.1
      | some y2 =>
        obtain ⟨k, r0⟩ := a
        obtain ⟨n1, e1⟩ := y2
        have hf : n1 = k := ((upcomingEntry_eq_some today k r0 n1 e1).mp hent).1
        simp only [List.filterMap_cons, hent, List.map_cons]
        rw [hf]
        exact ih.cons₂ k

end ContactBook
